import Mathlib

/-!
# FaceTrackerApp

A shallow embedding of `samples/FaceTrackerApp/src/FaceTrackerApp.cpp`: the Cinder
callbacks `draw`, `keyDown`, `screenShot`, `setup` and `update` of the sample application,
with the calls they issue to the renderer, the host framework and the two device SDKs
recorded as traces, and the properties that hold of them.

The collaborators (Cinder, the Kinect SDK wrapper, the face tracker) are external: what
the application reads from them is an input of the model, what it asks of them is a
recorded call. Floating-point vectors, matrices and colours are abstract types.
-/

namespace FaceTrackerApp

/-! ## Data model -/

/-- Joint identifiers: the values of the enumeration `JointName`. The enumeration also has
the enumerator `NUI_SKELETON_POSITION_COUNT` itself (the source writes
`JointName::NUI_SKELETON_POSITION_COUNT`), so the type has more values than there are
joints. -/
abbrev JointName := Nat

/-- The part of `KinectSdk::Bone` that `draw` reads: `getPosition()`,
`getAbsoluteRotationMatrix()` and `getStartJoint()`. -/
structure Bone (V M : Type) where
  position : V
  absoluteRotationMatrix : M
  startJoint : JointName
deriving DecidableEq, Repr

/-- A `KinectSdk::Skeleton` is a `std::map<JointName, Bone>`; it is represented by its
entries in iteration order. -/
abbrev Skeleton (V M : Type) := List (JointName × Bone V M)

/-- The entries of a `std::map` are in strictly increasing key order; in particular no key
occurs twice. -/
def Skeleton.IsMap {V M : Type} (skeleton : Skeleton V M) : Prop :=
  (skeleton.map Prod.fst).Pairwise (fun a b => a < b)

instance {V M : Type} (skeleton : Skeleton V M) : Decidable skeleton.IsMap := by
  unfold Skeleton.IsMap; infer_instance

/-- The member `std::map::at`: the value stored under `key`, or `none` where the standard
library throws `std::out_of_range`. -/
def Skeleton.lookupAt {V M : Type} (skeleton : Skeleton V M) (key : JointName) :
    Option (Bone V M) :=
  List.lookup key skeleton

/-- The vector arithmetic `draw` performs on a joint: `Matrix44f::transformPoint`,
`Vec3f::normalized`, the scaling `direction *= 0.05f` and `Vec3f` addition. -/
structure VecOps (V M : Type) where
  transformPoint : M → V → V
  normalized : V → V
  scaled : V → V
  add : V → V → V

/-- The two line widths `draw` selects. -/
inductive LineWidth where
  /-- The literal `2.0f`, used for bones. -/
  | bone
  /-- The literal `0.5f`, used for joint orientations. -/
  | orientation
deriving DecidableEq, Repr

/-- The two colours `draw` selects. -/
inductive DrawColor (C : Type) where
  /-- The colour `mKinect->getUserColor( i )` of the skeleton. -/
  | user (c : C)
  /-- The constant `ColorAf::white()`. -/
  | white
deriving DecidableEq, Repr

/-- What `draw` asks of the renderer, and the map lookup it performs, in program order. -/
inductive GlCall (V C : Type) where
  /-- The call `gl::setViewport( getWindowBounds() )`. -/
  | setViewport
  /-- The call `gl::clear( Colorf::gray( 0.1f ) )`. -/
  | clear
  /-- The call `gl::setMatrices( mCamera )`. -/
  | setMatrices
  | glLineWidth (w : LineWidth)
  /-- The call `glBegin( GL_LINES )`. -/
  | glBegin
  /-- The lookup `skeletonIt->at( key )`. -/
  | skeletonAt (key : JointName)
  | vertex (p : V)
  | glEnd
  | color (c : DrawColor C)
  /-- The call `gl::drawSphere( center, 0.025f, 16 )`. -/
  | drawSphere (center : V)
  /-- The call `gl::drawVector( start, finish, 0.05f, 0.01f )`. -/
  | drawVector (start finish : V)
deriving DecidableEq, Repr

/-- The calls that put geometry on screen: the end points of a bone line, a joint sphere,
an orientation vector. -/
def GlCall.isPrimitive {V C : Type} : GlCall V C → Bool
  | .vertex _ => true
  | .drawSphere _ => true
  | .drawVector _ _ => true
  | _ => false

/-- A run of a piece of `draw`: the calls made, and whether `std::out_of_range` escaped
(after which nothing further is executed). -/
structure Outcome (V C : Type) where
  calls : List (GlCall V C)
  threw : Bool
deriving DecidableEq, Repr

/-! ## draw -/

section Draw

variable {V M C : Type}

/-- The direction end point computed for a joint:
`transform.transformPoint( position ).normalized()` scaled by `0.05f`. -/
def direction (ops : VecOps V M) (bone : Bone V M) : V :=
  ops.scaled (ops.normalized (ops.transformPoint bone.absoluteRotationMatrix bone.position))

/-- The calls one pass of the inner loop makes for `bone` once its start joint was found
with position `destination`. -/
def drawJoint (ops : VecOps V M) (color : C) (bone : Bone V M) (destination : V) :
    List (GlCall V C) :=
  [ .glLineWidth .bone,
    .glBegin,
    .skeletonAt bone.startJoint,
    .vertex bone.position,
    .vertex destination,
    .glEnd,
    .color (.user color),
    .drawSphere bone.position,
    .glLineWidth .orientation,
    .color .white,
    .drawVector bone.position (ops.add bone.position (direction ops bone)) ]

/-- The inner loop of `draw` over the entries `boneIt` still has to visit; `skeleton` is the
whole map, in which the start joints are looked up. -/
def drawJoints (ops : VecOps V M) (color : C) (skeleton : Skeleton V M) :
    List (JointName × Bone V M) → Outcome V C
  | [] => ⟨[], false⟩
  | (_, bone) :: rest =>
    match skeleton.lookupAt bone.startJoint with
    | none => ⟨[.glLineWidth .bone, .glBegin, .skeletonAt bone.startJoint], true⟩
    | some parent =>
      let later := drawJoints ops color skeleton rest
      ⟨drawJoint ops color bone parent.position ++ later.calls, later.threw⟩

/-- The body of the outer loop for the skeleton at index `i`: the size check, and for a
skeleton that passes it the inner loop in the colour `getUserColor( i )`. -/
def drawSkeleton (NUI_SKELETON_POSITION_COUNT : Nat) (ops : VecOps V M)
    (getUserColor : Nat → C) (i : Nat) (skeleton : Skeleton V M) : Outcome V C :=
  if skeleton.length = NUI_SKELETON_POSITION_COUNT then
    drawJoints ops (getUserColor i) skeleton skeleton
  else
    ⟨[], false⟩

/-- The outer loop of `draw` from index `i` (a `uint32_t`) on: the calls of each pass
entered, one list per pass, and whether an exception escaped. -/
def drawSkeletons (NUI_SKELETON_POSITION_COUNT : Nat) (ops : VecOps V M)
    (getUserColor : Nat → C) : Nat → List (Skeleton V M) → List (List (GlCall V C)) × Bool
  | _, [] => ([], false)
  | i, skeleton :: rest =>
    let pass := drawSkeleton NUI_SKELETON_POSITION_COUNT ops getUserColor i skeleton
    if pass.threw then
      ([pass.calls], true)
    else
      let later := drawSkeletons NUI_SKELETON_POSITION_COUNT ops getUserColor
        ((i + 1) % 4294967296) rest
      (pass.calls :: later.1, later.2)

/-- What `draw` reads: the constant `NUI_SKELETON_POSITION_COUNT` of the sensor SDK, the
vector arithmetic, `mKinect->isCapturing()`, `mKinect->getUserColor` and the member
`mSkeletons`. -/
structure DrawInput (V M C : Type) where
  NUI_SKELETON_POSITION_COUNT : Nat
  ops : VecOps V M
  isCapturing : Bool
  getUserColor : Nat → C
  mSkeletons : List (Skeleton V M)

/-- The result of `draw`: the calls made outside the skeleton loop, the calls of each pass
of the skeleton loop, and whether `std::out_of_range` escaped. -/
structure DrawResult (V C : Type) where
  frame : List (GlCall V C)
  passes : List (List (GlCall V C))
  threw : Bool
deriving DecidableEq, Repr

/-- The method `FaceTrackerApp::draw`. -/
def draw (s : DrawInput V M C) : DrawResult V C :=
  if s.isCapturing then
    let loop := drawSkeletons s.NUI_SKELETON_POSITION_COUNT s.ops s.getUserColor 0 s.mSkeletons
    ⟨[.setViewport, .clear, .setMatrices], loop.1, loop.2⟩
  else
    ⟨[.setViewport, .clear], [], false⟩

/-- Every call of a `draw`, in program order. -/
def DrawResult.calls (r : DrawResult V C) : List (GlCall V C) :=
  r.frame ++ r.passes.flatten

/-- The calls `draw` made for the skeleton at index `i` of `mSkeletons`. -/
def DrawResult.callsFor (r : DrawResult V C) (i : Nat) : List (GlCall V C) :=
  r.passes.getD i []

/-- The skeleton at index `i` is rendered: a bone line, joint sphere or orientation vector
was emitted for it. -/
def DrawResult.renders (r : DrawResult V C) (i : Nat) : Bool :=
  (r.callsFor i).any GlCall.isPrimitive

/-- Every skeleton of `mSkeletons` that passes the size check holds the start joint of
each of its joints. -/
def DrawInput.ParentsPresent (s : DrawInput V M C) : Prop :=
  ∀ skeleton ∈ s.mSkeletons, skeleton.length = s.NUI_SKELETON_POSITION_COUNT →
    ∀ joint ∈ skeleton, (skeleton.lookupAt joint.2.startJoint).isSome = true

instance (s : DrawInput V M C) : Decidable s.ParentsPresent := by
  unfold DrawInput.ParentsPresent; infer_instance

/-- A skeleton as the sensor session hands it out when there are `count` joints: a map
whose keys are joint identifiers below `count` and whose joints start at joint identifiers
below `count`. -/
def Skeleton.WellFormed (count : Nat) (skeleton : Skeleton V M) : Prop :=
  skeleton.IsMap ∧ ∀ joint ∈ skeleton, joint.1 < count ∧ joint.2.startJoint < count

instance (count : Nat) (skeleton : Skeleton V M) : Decidable (skeleton.WellFormed count) := by
  unfold Skeleton.WellFormed; infer_instance

/-- The cached skeletons at the indices up to and including `i` that pass the size check are
well formed. Nothing is asked of the skeletons behind index `i`, nor of those that fail the
size check. -/
def DrawInput.WellFormedUpTo (s : DrawInput V M C) (i : Nat) : Prop :=
  ∀ skeleton ∈ s.mSkeletons.take (i + 1),
    skeleton.length = s.NUI_SKELETON_POSITION_COUNT →
      skeleton.WellFormed s.NUI_SKELETON_POSITION_COUNT

instance (s : DrawInput V M C) (i : Nat) : Decidable (s.WellFormedUpTo i) := by
  unfold DrawInput.WellFormedUpTo; infer_instance

/-- What the renderer is asked to put on screen. -/
inductive Primitive (V : Type) where
  | segment (a b : V)
  | sphere (center : V)
  | vector (start finish : V)
deriving DecidableEq, Repr

/-- The line segments of a `GL_LINES` block: its vertices, taken in pairs. -/
def lineSegments : List V → List (Primitive V)
  | a :: b :: rest => .segment a b :: lineSegments rest
  | _ => []

/-- The primitives a sequence of calls puts on screen; `pending` holds the vertices of the
`glBegin` block that is open, if one is. -/
def primitivesFrom : Option (List V) → List (GlCall V C) → List (Primitive V)
  | _, [] => []
  | _, .glBegin :: rest => primitivesFrom (some []) rest
  | some vs, .vertex p :: rest => primitivesFrom (some (vs ++ [p])) rest
  | some vs, .glEnd :: rest => lineSegments vs ++ primitivesFrom none rest
  | pending, .drawSphere c :: rest => .sphere c :: primitivesFrom pending rest
  | pending, .drawVector a b :: rest => .vector a b :: primitivesFrom pending rest
  | pending, _ :: rest => primitivesFrom pending rest

/-- The primitives a sequence of calls puts on screen. -/
def primitives (calls : List (GlCall V C)) : List (Primitive V) :=
  primitivesFrom none calls

/-- The three primitives the specification asks for a joint whose start joint sits at
`destination`: the bone, the joint, and the joint orientation. -/
def jointPrimitives (ops : VecOps V M) (bone : Bone V M) (destination : V) :
    List (Primitive V) :=
  [ .segment bone.position destination,
    .sphere bone.position,
    .vector bone.position (ops.add bone.position (direction ops bone)) ]

/-- The position of the start joint of `bone` in `skeleton`, where it is present. -/
def parentPosition (skeleton : Skeleton V M) (bone : Bone V M) : Option V :=
  (skeleton.lookupAt bone.startJoint).map (fun parent => parent.position)

/-- What the specification asks to be shown for one joint of `skeleton`: its three
primitives, the bone leading to the position of its start joint in the same skeleton. -/
def expectedJoint (ops : VecOps V M) (skeleton : Skeleton V M)
    (joint : JointName × Bone V M) : List (Primitive V) :=
  match parentPosition skeleton joint.2 with
  | some destination => jointPrimitives ops joint.2 destination
  | none => []

/-- The primitive is a line segment. -/
def Primitive.isSegment : Primitive V → Bool
  | .segment _ _ => true
  | _ => false

/-- The primitive is a sphere. -/
def Primitive.isSphere : Primitive V → Bool
  | .sphere _ => true
  | _ => false

/-- The primitive is an orientation vector. -/
def Primitive.isVector : Primitive V → Bool
  | .vector _ _ => true
  | _ => false

end Draw

/-! ## update -/

section Update

variable {V M : Type}

/-- What `update` asks of the sensor session. -/
inductive KinectCall where
  /-- The call `mKinect->start()`, written without an argument. -/
  | start
deriving DecidableEq, Repr

/-- What `update` reads in one frame: `mKinect->isCapturing()`,
`mKinect->checkNewSkeletons()`, `mKinect->getSkeletons()` and `getElapsedFrames()`. -/
structure Frame (V M : Type) where
  isCapturing : Bool
  checkNewSkeletons : Bool
  getSkeletons : List (Skeleton V M)
  getElapsedFrames : Nat

/-- The method `FaceTrackerApp::update`: the new value of the member `mSkeletons` and the
calls made to the sensor session. -/
def update (frame : Frame V M) (mSkeletons : List (Skeleton V M)) :
    List (Skeleton V M) × List KinectCall :=
  if frame.isCapturing then
    if frame.checkNewSkeletons then
      (frame.getSkeletons, [])
    else
      (mSkeletons, [])
  else
    if frame.getElapsedFrames % 90 = 0 then
      (mSkeletons, [.start])
    else
      (mSkeletons, [])

/-- A run of the application loop: `update` is called once per frame, for `frames` frames,
the first at elapsed-frame count `first`; `sensor n` is what the sensor session answers at
count `n`. The result is `mSkeletons` after the run and the sensor calls made, each with the
elapsed-frame count at which it was made. -/
def run (sensor : Nat → Frame V M) :
    (frames first : Nat) → List (Skeleton V M) → List (Skeleton V M) × List (Nat × KinectCall)
  | 0, _, mSkeletons => (mSkeletons, [])
  | frames + 1, first, mSkeletons =>
    let step := update { sensor first with getElapsedFrames := first } mSkeletons
    let later := run sensor frames (first + 1) step.1
    (later.1, step.2.map (fun call => (first, call)) ++ later.2)

/-- The elapsed-frame counts at which a run of `frames` frames from count 0, started with no
cached skeleton, issued a restart. -/
def restartCounts (sensor : Nat → Frame V M) (frames : Nat) : List Nat :=
  (run sensor frames 0 []).2.map Prod.fst

/-- A sensor session that is never capturing. -/
def neverCapturing : Nat → Frame V M :=
  fun n => ⟨false, false, [], n⟩

end Update

/-! ## keyDown and screenShot -/

section Keys

variable {P S : Type}

/-- The key codes `keyDown` distinguishes. They are the labels of one `switch`, hence
pairwise different. -/
structure KeyCodes where
  KEY_ESCAPE : Int
  KEY_f : Int
  KEY_SPACE : Int
  escape_ne_f : KEY_ESCAPE ≠ KEY_f
  escape_ne_space : KEY_ESCAPE ≠ KEY_SPACE
  f_ne_space : KEY_f ≠ KEY_SPACE

/-- The key codes of Cinder: escape is 27, the letter f is 102, space is 32. -/
def cinderKeys : KeyCodes :=
  ⟨27, 102, 32, by decide, by decide, by decide⟩

/-- What the key handler asks of the host framework. -/
inductive AppCall (P S : Type) where
  | quit
  | setFullScreen (fullScreen : Bool)
  /-- The call `writeImage( path, surface )`. -/
  | writeImage (path : P) (surface : S)
deriving DecidableEq, Repr

/-- The host application as the key handler sees it: the answers of `isFullScreen()`,
`getElapsedFrames()`, `getAppPath()` and `copyWindowSurface()`, the path operator
`fs::path::operator/` applied to a directory and a file name, and the calls received so
far. -/
structure Host (P S : Type) where
  isFullScreen : Bool
  getElapsedFrames : Nat
  getAppPath : P
  copyWindowSurface : S
  pathAppend : P → String → P
  calls : List (AppCall P S)

/-- The framework call `quit()`. -/
def Host.quit (h : Host P S) : Host P S :=
  { h with calls := h.calls ++ [.quit] }

/-- The framework call `setFullScreen( fullScreen )`: the window is full screen afterwards
exactly when asked to be. -/
def Host.setFullScreen (h : Host P S) (fullScreen : Bool) : Host P S :=
  { h with isFullScreen := fullScreen, calls := h.calls ++ [.setFullScreen fullScreen] }

/-- The framework call `writeImage( path, surface )`. -/
def Host.writeImage (h : Host P S) (path : P) (surface : S) : Host P S :=
  { h with calls := h.calls ++ [.writeImage path surface] }

/-- The file name `screenShot` builds: `"frame" + toString( getElapsedFrames() ) + ".png"`. -/
def screenShotName (elapsedFrames : Nat) : String :=
  "frame" ++ toString elapsedFrames ++ ".png"

/-- The decimal rendering of a number, as the specification understands it: its digits
in base ten, most significant first, the number zero rendered as the single digit 0. -/
def decimal (n : Nat) : String :=
  if n = 0 then "0" else String.mk ((Nat.digits 10 n).reverse.map Nat.digitChar)

/-- The method `FaceTrackerApp::screenShot`. -/
def screenShot (h : Host P S) : Host P S :=
  h.writeImage (h.pathAppend h.getAppPath (screenShotName h.getElapsedFrames))
    h.copyWindowSurface

/-- The method `FaceTrackerApp::keyDown`; `code` is `event.getCode()`. -/
def keyDown (keys : KeyCodes) (code : Int) (h : Host P S) : Host P S :=
  if code = keys.KEY_ESCAPE then
    h.quit
  else if code = keys.KEY_f then
    h.setFullScreen (!h.isFullScreen)
  else if code = keys.KEY_SPACE then
    screenShot h
  else
    h

/-- The calls a handler added to the host. -/
def Host.newCalls (before after : Host P S) : List (AppCall P S) :=
  after.calls.drop before.calls.length

end Keys

/-! ## setup -/

section Setup

variable {D R : Type}

/-- The enumeration of skeleton transforms of the sensor SDK, of which `setup` names
`Kinect::TRANSFORM_SMOOTH`. -/
inductive Transform where
  | TRANSFORM_SMOOTH
  | otherTransform (code : Nat)
deriving DecidableEq, Repr

/-- What `setup` asks of the two device SDKs and of the camera. -/
inductive SetupCall (D R : Type) where
  /-- The call `Kinect::create()`. -/
  | kinectCreate
  /-- The call `mKinect->start( deviceOptions )`. -/
  | kinectStart (deviceOptions : D)
  /-- The call `mKinect->removeBackground()`. -/
  | removeBackground
  /-- The call `mKinect->setFlipped( flipped )`. -/
  | setFlipped (flipped : Bool)
  /-- The call `FaceTracker::create()`. -/
  | faceTrackerCreate
  /-- The call `mFaceTracker->setup( deviceOptions )`. -/
  | faceTrackerSetup (deviceOptions : D)
  /-- The call `mKinect->setTransform( transform )`. -/
  | setTransform (transform : Transform)
  /-- The call `mCamera.lookAt( Vec3f( 0.0f, 0.0f, 2.0f ), Vec3f::zero() )`. -/
  | cameraLookAt
  /-- The call `mCamera.setPerspective( 45.0f, aspect, 0.01f, 1000.0f )`. -/
  | cameraSetPerspective (aspect : R)
deriving DecidableEq, Repr

/-- The method `FaceTrackerApp::setup`. `defaultOptions` is the default-constructed local
`DeviceOptions deviceOptions`, `windowAspect` the answer of `getWindowAspectRatio()`.
The declarations of `Kinect::start` and `FaceTracker::setup` are not part of the source
file; with the specification, which has the face tracker configured against the same device
options, the two calls are taken to read the local and to leave it as it is. -/
def setup (defaultOptions : D) (windowAspect : R) : List (SetupCall D R) :=
  let deviceOptions := defaultOptions
  [ .kinectCreate,
    .kinectStart deviceOptions,
    .removeBackground,
    .setFlipped true,
    .faceTrackerCreate,
    .faceTrackerSetup deviceOptions,
    .setTransform .TRANSFORM_SMOOTH,
    .cameraLookAt,
    .cameraSetPerspective windowAspect ]

/-- The device options a call starts the sensor session with, if it is such a call. -/
def SetupCall.startOptions : SetupCall D R → Option D
  | .kinectStart o => some o
  | _ => none

/-- The device options a call configures the face tracker with, if it is such a call. -/
def SetupCall.trackerOptions : SetupCall D R → Option D
  | .faceTrackerSetup o => some o
  | _ => none

end Setup

/-! ## Concrete inputs -/

section Examples

/-- Vector arithmetic on integer stand-ins for positions: the rotation and the normalisation
leave a point where it is. -/
def intOps : VecOps Int Unit :=
  ⟨fun _ v => v, fun v => v, fun v => v, fun a b => a + b⟩

/-- A skeleton with the given keys in which the joint with key `k` sits at position `k`
and starts at joint `k - 1` (joint 0 at itself). -/
def chain (keys : List Nat) : Skeleton Int Unit :=
  keys.map (fun k => (k, ⟨(k : Int), (), k - 1⟩))

/-- The skeleton with the three keys 0, 1, 2. -/
def fullSkeleton : Skeleton Int Unit := chain [0, 1, 2]

/-- A capturing session with twenty joints to a skeleton and the given skeletons cached. -/
def capturing20 (mSkeletons : List (Skeleton Int Unit)) : DrawInput Int Unit Nat :=
  ⟨20, intOps, true, fun i => i, mSkeletons⟩

/-- A capturing session with three joints to a skeleton and the given skeletons cached. -/
def capturing3 (mSkeletons : List (Skeleton Int Unit)) : DrawInput Int Unit Nat :=
  ⟨3, intOps, true, fun i => i, mSkeletons⟩

/-- A host whose paths are strings joined by a slash and whose surfaces are numbers: a
window that is not full screen, at elapsed-frame count 12, that has received no call. -/
def exampleHost : Host String Nat :=
  { isFullScreen := false
    getElapsedFrames := 12
    getAppPath := "app"
    copyWindowSurface := 7
    pathAppend := fun dir name => dir ++ "/" ++ name
    calls := [] }

end Examples

/-! ## Properties of draw -/

section DrawLemmas

variable {V M C : Type}

theorem drawJoints_cons_some (ops : VecOps V M) (color : C) (skeleton : Skeleton V M)
    (joint : JointName × Bone V M) (rest : List (JointName × Bone V M)) (parent : Bone V M)
    (h : skeleton.lookupAt joint.2.startJoint = some parent) :
    drawJoints ops color skeleton (joint :: rest) =
      ⟨drawJoint ops color joint.2 parent.position ++ (drawJoints ops color skeleton rest).calls,
        (drawJoints ops color skeleton rest).threw⟩ := by
  obtain ⟨key, bone⟩ := joint
  simp only [drawJoints]
  simp only at h
  rw [h]

theorem primitives_drawJoint_append (ops : VecOps V M) (color : C) (bone : Bone V M)
    (destination : V) (rest : List (GlCall V C)) :
    primitives (drawJoint ops color bone destination ++ rest) =
      jointPrimitives ops bone destination ++ primitives rest := by
  simp [primitives, drawJoint, primitivesFrom, lineSegments, jointPrimitives]

/-- With every start joint present, the inner loop runs to its end, and what it puts on
screen is the three primitives of each joint, in iteration order. -/
theorem drawJoints_of_parents (ops : VecOps V M) (color : C) (skeleton : Skeleton V M) :
    ∀ rest : List (JointName × Bone V M),
      (∀ joint ∈ rest, (skeleton.lookupAt joint.2.startJoint).isSome = true) →
      (drawJoints ops color skeleton rest).threw = false ∧
      primitives (drawJoints ops color skeleton rest).calls =
        rest.flatMap (expectedJoint ops skeleton) := by
  intro rest
  induction rest with
  | nil => intro _; simp [drawJoints, primitives, primitivesFrom]
  | cons joint rest ih =>
    intro h
    have hjoint := h joint (List.mem_cons_self _ _)
    obtain ⟨parent, hparent⟩ := Option.isSome_iff_exists.mp hjoint
    have hrest := ih (fun j hj => h j (List.mem_cons_of_mem _ hj))
    rw [drawJoints_cons_some ops color skeleton joint rest parent hparent]
    refine ⟨hrest.1, ?_⟩
    simp only [primitives_drawJoint_append, List.flatMap_cons, hrest.2]
    simp [expectedJoint, parentPosition, hparent]

/-- The outer loop, when no lookup fails: it runs to its end, and pass `j` is the body of
the loop for the skeleton at index `j`, with the loop counter wrapped to 32 bits. -/
theorem drawSkeletons_of_parents (count : Nat) (ops : VecOps V M) (getUserColor : Nat → C) :
    ∀ (skeletons : List (Skeleton V M)) (i : Nat),
      (∀ skeleton ∈ skeletons, skeleton.length = count →
        ∀ joint ∈ skeleton, (skeleton.lookupAt joint.2.startJoint).isSome = true) →
      (drawSkeletons count ops getUserColor (i % 4294967296) skeletons).2 = false ∧
      ∀ (j : Nat) (skeleton : Skeleton V M), skeletons[j]? = some skeleton →
        (drawSkeletons count ops getUserColor (i % 4294967296) skeletons).1[j]? =
          some (drawSkeleton count ops getUserColor ((i + j) % 4294967296) skeleton).calls := by
  intro skeletons
  induction skeletons with
  | nil => intro i _; simp [drawSkeletons]
  | cons first rest ih =>
    intro i h
    have hfirst : (drawSkeleton count ops getUserColor (i % 4294967296) first).threw = false := by
      unfold drawSkeleton
      split
      · next hlen =>
        exact (drawJoints_of_parents ops _ first first
          (h first (List.mem_cons_self _ _) hlen)).1
      · rfl
    have hrest := ih (i + 1) (fun sk hsk => h sk (List.mem_cons_of_mem _ hsk))
    have hstep : (i % 4294967296 + 1) % 4294967296 = (i + 1) % 4294967296 := by omega
    simp only [drawSkeletons, hfirst, hstep]
    refine ⟨by simpa using hrest.1, ?_⟩
    intro j skeleton hj
    cases j with
    | zero =>
      simp only [List.getElem?_cons_zero, Option.some.injEq] at hj
      simp [hj]
    | succ j =>
      simp only [List.getElem?_cons_succ] at hj
      have := hrest.2 j skeleton hj
      simp only [Bool.false_eq_true, if_false, List.getElem?_cons_succ]
      rw [this]
      congr 3
      omega

/-- Every pass of the outer loop is the body of the loop for the skeleton at that index,
with the loop counter wrapped to 32 bits; this holds whether or not a lookup fails. -/
theorem drawSkeletons_pass (count : Nat) (ops : VecOps V M) (getUserColor : Nat → C) :
    ∀ (skeletons : List (Skeleton V M)) (i j : Nat) (calls : List (GlCall V C)),
      (drawSkeletons count ops getUserColor (i % 4294967296) skeletons).1[j]? = some calls →
      ∃ skeleton, skeletons[j]? = some skeleton ∧
        calls = (drawSkeleton count ops getUserColor ((i + j) % 4294967296) skeleton).calls := by
  intro skeletons
  induction skeletons with
  | nil => intro i j calls h; simp [drawSkeletons] at h
  | cons first rest ih =>
    intro i j calls h
    have hstep : (i % 4294967296 + 1) % 4294967296 = (i + 1) % 4294967296 := by omega
    simp only [drawSkeletons, hstep] at h
    cases j with
    | zero =>
      refine ⟨first, by simp, ?_⟩
      split at h <;> simpa using h.symm
    | succ j =>
      split at h
      · simp at h
      · simp only [List.getElem?_cons_succ] at h
        obtain ⟨skeleton, hsk, hcalls⟩ := ih (i + 1) j calls h
        refine ⟨skeleton, by simpa using hsk, ?_⟩
        rw [hcalls]
        congr 3
        omega

theorem drawSkeleton_of_size_ne (count : Nat) (ops : VecOps V M) (getUserColor : Nat → C)
    (i : Nat) (skeleton : Skeleton V M) (h : skeleton.length ≠ count) :
    drawSkeleton count ops getUserColor i skeleton = ⟨[], false⟩ := by
  simp [drawSkeleton, h]

theorem drawSkeleton_of_size_eq (count : Nat) (ops : VecOps V M) (getUserColor : Nat → C)
    (i : Nat) (skeleton : Skeleton V M) (h : skeleton.length = count) :
    drawSkeleton count ops getUserColor i skeleton =
      drawJoints ops (getUserColor i) skeleton skeleton := by
  simp [drawSkeleton, h]

/-- The calls of `draw` for the skeleton at index `i` are either none or those of the body
of the skeleton loop for that skeleton. -/
theorem draw_callsFor_cases (s : DrawInput V M C) (i : Nat) (skeleton : Skeleton V M)
    (hi : s.mSkeletons[i]? = some skeleton) :
    (draw s).callsFor i = [] ∨
    (s.isCapturing = true ∧
      (draw s).callsFor i =
        (drawSkeleton s.NUI_SKELETON_POSITION_COUNT s.ops s.getUserColor
          (i % 4294967296) skeleton).calls) := by
  cases hcap : s.isCapturing with
  | false => left; simp [draw, hcap, DrawResult.callsFor]
  | true =>
    cases hpass : (drawSkeletons s.NUI_SKELETON_POSITION_COUNT s.ops s.getUserColor 0
        s.mSkeletons).1[i]? with
    | none =>
      left
      simp [draw, hcap, DrawResult.callsFor, List.getD_eq_getElem?_getD, hpass]
    | some calls =>
      right
      obtain ⟨sk, hsk, hcalls⟩ := drawSkeletons_pass s.NUI_SKELETON_POSITION_COUNT s.ops
        s.getUserColor s.mSkeletons 0 i calls (by simpa using hpass)
      rw [hi] at hsk
      cases hsk
      simp only [Nat.zero_add] at hcalls
      refine ⟨rfl, ?_⟩
      simp [draw, hcap, DrawResult.callsFor, List.getD_eq_getElem?_getD, hpass, hcalls]

/-- The skeleton loop makes at most one pass per cached skeleton. -/
theorem draw_passes_length_le (s : DrawInput V M C) :
    (draw s).passes.length ≤ s.mSkeletons.length := by
  cases hcap : s.isCapturing with
  | false => simp [draw, hcap]
  | true =>
    by_contra hlt
    have hlt : s.mSkeletons.length < (drawSkeletons s.NUI_SKELETON_POSITION_COUNT s.ops
        s.getUserColor 0 s.mSkeletons).1.length := by
      simpa [draw, hcap] using hlt
    have hpass := List.getElem?_eq_getElem hlt
    obtain ⟨sk, hsk, _⟩ := drawSkeletons_pass s.NUI_SKELETON_POSITION_COUNT s.ops
      s.getUserColor s.mSkeletons 0 s.mSkeletons.length _ hpass
    simp at hsk

theorem draw_threw_of_parents (s : DrawInput V M C) (hparents : s.ParentsPresent) :
    (draw s).threw = false := by
  cases hcap : s.isCapturing with
  | false => simp [draw, hcap]
  | true =>
    have h := drawSkeletons_of_parents s.NUI_SKELETON_POSITION_COUNT s.ops s.getUserColor
      s.mSkeletons 0 hparents
    simp only [Nat.zero_mod] at h
    simp [draw, hcap, h.1]

theorem lookupAt_isSome_of_mem_keys (skeleton : Skeleton V M) (key : JointName)
    (h : key ∈ skeleton.map Prod.fst) : (skeleton.lookupAt key).isSome = true := by
  induction skeleton with
  | nil => simp at h
  | cons joint rest ih =>
    obtain ⟨k, bone⟩ := joint
    simp only [Skeleton.lookupAt, List.lookup_cons]
    by_cases hk : key = k
    · simp [hk]
    · have hne : (key == k) = false := by simpa using hk
      simp only [hne]
      apply ih
      simpa [hk] using h

/-- A list of `n` different numbers below `n` holds every number below `n`. -/
theorem mem_of_nodup_of_lt_of_length (keys : List Nat) (n : Nat) (hnodup : keys.Nodup)
    (hlt : ∀ k ∈ keys, k < n) (hlen : keys.length = n) : ∀ k, k < n → k ∈ keys := by
  intro k hk
  have hsub : keys.toFinset ⊆ Finset.range n := by
    intro x hx
    exact Finset.mem_range.mpr (hlt x (List.mem_toFinset.mp hx))
  have hcard : (Finset.range n).card ≤ keys.toFinset.card := by
    rw [List.toFinset_card_of_nodup hnodup, Finset.card_range, hlen]
  have heq := Finset.eq_of_subset_of_card_le hsub hcard
  have : k ∈ keys.toFinset := by rw [heq]; exact Finset.mem_range.mpr hk
  exact List.mem_toFinset.mp this

theorem IsMap.nodup_keys (skeleton : Skeleton V M) (h : skeleton.IsMap) :
    (skeleton.map Prod.fst).Nodup :=
  List.Pairwise.imp (fun hab => Nat.ne_of_lt hab) h

/-- The pigeonhole step of the size check: a map of size `count` with keys below `count`
holds every key below `count`. -/
theorem lookupAt_isSome_of_full (count : Nat) (skeleton : Skeleton V M) (hmap : skeleton.IsMap)
    (hkeys : ∀ joint ∈ skeleton, joint.1 < count) (hsize : skeleton.length = count) :
    ∀ key, key < count → (skeleton.lookupAt key).isSome = true := by
  intro key hkey
  apply lookupAt_isSome_of_mem_keys
  apply mem_of_nodup_of_lt_of_length _ count (IsMap.nodup_keys skeleton hmap) _
    (by simpa using hsize) key hkey
  intro k hk
  obtain ⟨joint, hjoint, rfl⟩ := List.mem_map.mp hk
  exact hkeys joint hjoint

/-- In a well-formed skeleton that passes the size check the start joint of every joint is
found. -/
theorem WellFormed.parents (count : Nat) (skeleton : Skeleton V M)
    (hwf : skeleton.WellFormed count) (hsize : skeleton.length = count) :
    ∀ joint ∈ skeleton, (skeleton.lookupAt joint.2.startJoint).isSome = true :=
  fun joint hjoint =>
    lookupAt_isSome_of_full count skeleton hwf.1 (fun j hj => (hwf.2 j hj).1) hsize _
      (hwf.2 joint hjoint).2

/-- The outer loop reaches pass `j` when no lookup fails in the passes before it, and pass
`j` is then the body of the loop for the skeleton at index `j`. -/
theorem drawSkeletons_pass_of_earlier (count : Nat) (ops : VecOps V M)
    (getUserColor : Nat → C) :
    ∀ (skeletons : List (Skeleton V M)) (i j : Nat) (skeleton : Skeleton V M),
      (∀ sk ∈ skeletons.take j, sk.length = count →
        ∀ joint ∈ sk, (sk.lookupAt joint.2.startJoint).isSome = true) →
      skeletons[j]? = some skeleton →
      (drawSkeletons count ops getUserColor (i % 4294967296) skeletons).1[j]? =
        some (drawSkeleton count ops getUserColor ((i + j) % 4294967296) skeleton).calls := by
  intro skeletons
  induction skeletons with
  | nil => intro i j skeleton _ h; simp at h
  | cons first rest ih =>
    intro i j skeleton hbefore hj
    have hstep : (i % 4294967296 + 1) % 4294967296 = (i + 1) % 4294967296 := by omega
    cases j with
    | zero =>
      simp only [List.getElem?_cons_zero, Option.some.injEq] at hj
      subst hj
      simp only [drawSkeletons, Nat.add_zero]
      split <;> simp
    | succ j =>
      simp only [List.getElem?_cons_succ] at hj
      have hfirst : (drawSkeleton count ops getUserColor (i % 4294967296) first).threw
          = false := by
        unfold drawSkeleton
        split
        · next hlen =>
          exact (drawJoints_of_parents ops _ first first
            (hbefore first (by simp) hlen)).1
        · rfl
      have hrest := ih (i + 1) j skeleton
        (fun sk hsk => hbefore sk (by simp [List.take_succ_cons, hsk])) hj
      simp only [drawSkeletons, hfirst, hstep, Bool.false_eq_true, if_false,
        List.getElem?_cons_succ]
      rw [hrest]
      congr 3
      omega

/-- The calls of `draw` for the skeleton at index `i`, when the session is capturing and the
skeletons up to index `i` are well formed: those of the body of the skeleton loop, in which
every start joint is found. -/
theorem draw_callsFor_of_wellFormed (s : DrawInput V M C) (hcap : s.isCapturing = true)
    (i : Nat) (skeleton : Skeleton V M) (hi : s.mSkeletons[i]? = some skeleton)
    (hwf : s.WellFormedUpTo i) :
    (draw s).callsFor i =
      (drawSkeleton s.NUI_SKELETON_POSITION_COUNT s.ops s.getUserColor
        (i % 4294967296) skeleton).calls ∧
    (skeleton.length = s.NUI_SKELETON_POSITION_COUNT →
      ∀ joint ∈ skeleton, (skeleton.lookupAt joint.2.startJoint).isSome = true) := by
  have hbefore : ∀ sk ∈ s.mSkeletons.take i, sk.length = s.NUI_SKELETON_POSITION_COUNT →
      ∀ joint ∈ sk, (sk.lookupAt joint.2.startJoint).isSome = true := by
    intro sk hsk hlen
    have hmem : sk ∈ s.mSkeletons.take (i + 1) :=
      List.take_subset_take_left _ (Nat.le_succ i) hsk
    exact WellFormed.parents _ sk (hwf sk hmem hlen) hlen
  have hself : skeleton ∈ s.mSkeletons.take (i + 1) := by
    apply List.getElem?_mem (n := i)
    rw [List.getElem?_take_of_lt (Nat.lt_succ_self i)]
    exact hi
  have h := drawSkeletons_pass_of_earlier s.NUI_SKELETON_POSITION_COUNT s.ops s.getUserColor
    s.mSkeletons 0 i skeleton hbefore hi
  simp only [Nat.zero_mod, Nat.zero_add] at h
  refine ⟨?_, fun hlen => WellFormed.parents _ skeleton (hwf skeleton hself hlen) hlen⟩
  simp [draw, hcap, DrawResult.callsFor, List.getD_eq_getElem?_getD, h]

theorem skeletonAt_not_mem_nil (key : JointName) :
    GlCall.skeletonAt key ∉ ([] : List (GlCall V C)) := by
  simp

theorem countP_flatMap_expectedJoint (ops : VecOps V M) (skeleton : Skeleton V M) :
    ∀ joints : List (JointName × Bone V M),
      (∀ joint ∈ joints, (skeleton.lookupAt joint.2.startJoint).isSome = true) →
      (joints.flatMap (expectedJoint ops skeleton)).countP Primitive.isSegment = joints.length ∧
      (joints.flatMap (expectedJoint ops skeleton)).countP Primitive.isSphere = joints.length ∧
      (joints.flatMap (expectedJoint ops skeleton)).countP Primitive.isVector = joints.length := by
  intro joints
  induction joints with
  | nil => intro _; simp
  | cons joint rest ih =>
    intro h
    obtain ⟨parent, hparent⟩ := Option.isSome_iff_exists.mp (h joint (List.mem_cons_self _ _))
    have hrest := ih (fun j hj => h j (List.mem_cons_of_mem _ hj))
    simp only [List.flatMap_cons, List.countP_append, hrest.1, hrest.2.1, hrest.2.2,
      List.length_cons]
    simp [expectedJoint, parentPosition, hparent, jointPrimitives, Primitive.isSegment,
      Primitive.isSphere, Primitive.isVector, List.countP_cons]
    omega

end DrawLemmas

/-! ## Claims about draw -/

section DrawClaims

variable {V M C : Type}

set_option maxRecDepth 100000

/-- C1, as stated, fails. The session is capturing and the one cached skeleton is a well-formed
map of two joints where twenty are expected: no call is made for the skeleton, but the
viewport and clear calls are not all that happens, the camera matrices are set as well. -/
theorem draw_renders_iff_counterexample :
    (capturing20 [chain [0, 1]]).isCapturing = true ∧
    (capturing20 [chain [0, 1]]).mSkeletons[0]? = some (chain [0, 1]) ∧
    (chain [0, 1]).WellFormed (capturing20 [chain [0, 1]]).NUI_SKELETON_POSITION_COUNT ∧
    (chain [0, 1]).length ≠ (capturing20 [chain [0, 1]]).NUI_SKELETON_POSITION_COUNT ∧
    (draw (capturing20 [chain [0, 1]])).callsFor 0 = [] ∧
    (draw (capturing20 [chain [0, 1]])).calls = [.setViewport, .clear, .setMatrices] ∧
    (draw (capturing20 [chain [0, 1]])).calls ≠ [.setViewport, .clear] := by
  decide

/-- C1, amended. For every application state: when the session is not capturing, the
viewport and clear calls are all that `draw` makes; when it is capturing, the camera matrices
are set after them and before the calls of the skeleton loop, which makes at most one pass
per cached skeleton. For every cached skeleton: if
its size is not `NUI_SKELETON_POSITION_COUNT`, `draw` makes no call for it; it is rendered
only if the session is capturing and its size is `NUI_SKELETON_POSITION_COUNT`; and, the
skeletons being well-formed maps over the `NUI_SKELETON_POSITION_COUNT` joint identifiers (a
positive number), it is rendered if and only if the session is capturing and its size is
`NUI_SKELETON_POSITION_COUNT`. -/
theorem draw_renders_iff (s : DrawInput V M C) :
    (s.isCapturing = false → (draw s).calls = [.setViewport, .clear]) ∧
    (s.isCapturing = true →
      (draw s).calls = [.setViewport, .clear, .setMatrices] ++ (draw s).passes.flatten) ∧
    (draw s).passes.length ≤ s.mSkeletons.length ∧
    (∀ (i : Nat) (skeleton : Skeleton V M), s.mSkeletons[i]? = some skeleton →
      (skeleton.length ≠ s.NUI_SKELETON_POSITION_COUNT → (draw s).callsFor i = []) ∧
      ((draw s).renders i = true →
        (s.isCapturing = true ∧ skeleton.length = s.NUI_SKELETON_POSITION_COUNT)) ∧
      (0 < s.NUI_SKELETON_POSITION_COUNT → s.WellFormedUpTo i →
        ((draw s).renders i = true ↔
          (s.isCapturing = true ∧ skeleton.length = s.NUI_SKELETON_POSITION_COUNT)))) := by
  refine ⟨?_, ?_, draw_passes_length_le s, ?_⟩
  · intro hcap
    simp [draw, hcap, DrawResult.calls]
  · intro hcap
    simp [draw, hcap, DrawResult.calls]
  · intro i skeleton hi
    have hsize : skeleton.length ≠ s.NUI_SKELETON_POSITION_COUNT →
        (draw s).callsFor i = [] := by
      intro hlen
      rcases draw_callsFor_cases s i skeleton hi with h | ⟨_, h⟩
      · exact h
      · rw [h, drawSkeleton_of_size_ne _ _ _ _ _ hlen]
    have honly : (draw s).renders i = true →
        (s.isCapturing = true ∧ skeleton.length = s.NUI_SKELETON_POSITION_COUNT) := by
      intro hrender
      rcases draw_callsFor_cases s i skeleton hi with h | ⟨hcap, _⟩
      · simp [DrawResult.renders, h] at hrender
      · refine ⟨hcap, ?_⟩
        by_contra hlen
        simp [DrawResult.renders, hsize hlen] at hrender
    refine ⟨hsize, honly, ?_⟩
    intro hcount hwf
    refine ⟨honly, ?_⟩
    rintro ⟨hcap, hlen⟩
    obtain ⟨hcalls, hparents⟩ := draw_callsFor_of_wellFormed s hcap i skeleton hi hwf
    cases hsk : skeleton with
    | nil => simp [hsk] at hlen; omega
    | cons joint rest =>
      have hjoint := hparents hlen joint (by simp [hsk])
      obtain ⟨parent, hparent⟩ := Option.isSome_iff_exists.mp hjoint
      rw [DrawResult.renders, hcalls, drawSkeleton_of_size_eq _ _ _ _ _ hlen]
      subst hsk
      rw [drawJoints_cons_some _ _ _ joint rest parent hparent]
      simp [drawJoint, GlCall.isPrimitive]

/-- Witness of `draw_renders_iff`: a capturing session with three joints to a skeleton that
has cached a skeleton of two joints and the skeleton with keys 0, 1, 2; the second one is
rendered. -/
theorem draw_renders_iff_witness :
    ((capturing3 [chain [0, 1], fullSkeleton]).mSkeletons[1]? = some fullSkeleton ∧
      0 < (capturing3 [chain [0, 1], fullSkeleton]).NUI_SKELETON_POSITION_COUNT ∧
      (capturing3 [chain [0, 1], fullSkeleton]).WellFormedUpTo 1 ∧
      (capturing3 [chain [0, 1], fullSkeleton]).isCapturing = true ∧
      fullSkeleton.length =
        (capturing3 [chain [0, 1], fullSkeleton]).NUI_SKELETON_POSITION_COUNT) ∧
    (draw (capturing3 [chain [0, 1], fullSkeleton])).renders 1 = true :=
  ⟨⟨by decide, by decide, by decide, by decide, by decide⟩,
    (((draw_renders_iff (capturing3 [chain [0, 1], fullSkeleton])).2.2.2 1 fullSkeleton
      (by decide)).2.2 (by decide) (by decide)).mpr ⟨by decide, by decide⟩⟩

/-- C9. Let the session be capturing and let the cached skeletons up to index `i` be
well-formed maps over the valid joint identifiers. Then for a skeleton of full size at index
`i` the start joint of every joint is found in the same skeleton, and what `draw` shows for
the skeleton is, joint by joint in iteration order, a line segment from the position of the
joint to the position of its start joint, a sphere at the position of the joint and a vector
that starts there: as many segments, spheres and vectors as there are joints. All calls of
the skeleton loop come after the call that sets the camera matrices. -/
theorem draw_valid_skeleton (s : DrawInput V M C) (hcap : s.isCapturing = true)
    (i : Nat) (skeleton : Skeleton V M) (hi : s.mSkeletons[i]? = some skeleton)
    (hwf : s.WellFormedUpTo i)
    (hvalid : skeleton.length = s.NUI_SKELETON_POSITION_COUNT) :
    (∀ joint ∈ skeleton, ∃ parent, skeleton.lookupAt joint.2.startJoint = some parent ∧
      expectedJoint s.ops skeleton joint =
        [ .segment joint.2.position parent.position,
          .sphere joint.2.position,
          .vector joint.2.position (s.ops.add joint.2.position (direction s.ops joint.2)) ]) ∧
    primitives ((draw s).callsFor i) = skeleton.flatMap (expectedJoint s.ops skeleton) ∧
    (primitives ((draw s).callsFor i)).countP Primitive.isSegment = skeleton.length ∧
    (primitives ((draw s).callsFor i)).countP Primitive.isSphere = skeleton.length ∧
    (primitives ((draw s).callsFor i)).countP Primitive.isVector = skeleton.length ∧
    (draw s).calls = [.setViewport, .clear, .setMatrices] ++ (draw s).passes.flatten := by
  obtain ⟨hcalls, hparents⟩ := draw_callsFor_of_wellFormed s hcap i skeleton hi hwf
  have hjoints := hparents hvalid
  have hshown := (drawJoints_of_parents s.ops (s.getUserColor (i % 4294967296)) skeleton
    skeleton hjoints).2
  have hprim : primitives ((draw s).callsFor i) =
      skeleton.flatMap (expectedJoint s.ops skeleton) := by
    rw [hcalls, drawSkeleton_of_size_eq _ _ _ _ _ hvalid, hshown]
  have hcount := countP_flatMap_expectedJoint s.ops skeleton skeleton hjoints
  refine ⟨?_, hprim, ?_, ?_, ?_, ?_⟩
  · intro joint hjoint
    obtain ⟨parent, hparent⟩ := Option.isSome_iff_exists.mp (hjoints joint hjoint)
    exact ⟨parent, hparent, by simp [expectedJoint, parentPosition, hparent, jointPrimitives]⟩
  · rw [hprim]; exact hcount.1
  · rw [hprim]; exact hcount.2.1
  · rw [hprim]; exact hcount.2.2
  · simp [draw, hcap, DrawResult.calls]

/-- Witness of `draw_valid_skeleton`: a capturing session with three joints to a skeleton and
the skeleton with keys 0, 1, 2 cached after an empty one. -/
theorem draw_valid_skeleton_witness :
    ((capturing3 [[], fullSkeleton]).isCapturing = true ∧
      (capturing3 [[], fullSkeleton]).mSkeletons[1]? = some fullSkeleton ∧
      (capturing3 [[], fullSkeleton]).WellFormedUpTo 1 ∧
      fullSkeleton.length = (capturing3 [[], fullSkeleton]).NUI_SKELETON_POSITION_COUNT) ∧
    primitives ((draw (capturing3 [[], fullSkeleton])).callsFor 1) =
      [ .segment 0 0, .sphere 0, .vector 0 0,
        .segment 1 0, .sphere 1, .vector 1 2,
        .segment 2 1, .sphere 2, .vector 2 4 ] :=
  ⟨⟨by decide, by decide, by decide, by decide⟩,
    (draw_valid_skeleton (capturing3 [[], fullSkeleton]) (by decide) 1 fullSkeleton
      (by decide) (by decide) (by decide)).2.1.trans (by decide)⟩

/-- C10. A skeleton that is a map with keys among the `count` valid joint identifiers, of
size `count`, in which every joint starts at a valid joint identifier, holds every valid
identifier; so the lookup of the start joint succeeds for every joint and the body of the
skeleton loop ends without `std::out_of_range`. For a skeleton that fails the size check
the body makes no lookup (and no other call). Hence `draw` ends without an exception
whenever the cached skeletons are such maps. -/
theorem lookup_startJoint_safe (count : Nat) (ops : VecOps V M) (getUserColor : Nat → C)
    (i : Nat) :
    (∀ skeleton : Skeleton V M,
      skeleton.IsMap →
      (∀ joint ∈ skeleton, joint.1 < count) →
      skeleton.length = count →
      (∀ joint ∈ skeleton, joint.2.startJoint < count) →
        (∀ key, key < count → ∃ bone, skeleton.lookupAt key = some bone) ∧
        (∀ joint ∈ skeleton, ∃ parent, skeleton.lookupAt joint.2.startJoint = some parent) ∧
        (drawSkeleton count ops getUserColor i skeleton).threw = false) ∧
    (∀ skeleton : Skeleton V M,
      skeleton.length ≠ count →
        (drawSkeleton count ops getUserColor i skeleton).threw = false ∧
        ∀ key, GlCall.skeletonAt key ∉ (drawSkeleton count ops getUserColor i skeleton).calls) ∧
    (∀ (isCapturing : Bool) (mSkeletons : List (Skeleton V M)),
      (∀ skeleton ∈ mSkeletons,
        skeleton.IsMap ∧ ∀ joint ∈ skeleton, joint.1 < count ∧ joint.2.startJoint < count) →
      (draw ⟨count, ops, isCapturing, getUserColor, mSkeletons⟩).threw = false) := by
  refine ⟨?_, ?_, ?_⟩
  · intro skeleton hmap hkeys hsize hstart
    have hall := lookupAt_isSome_of_full count skeleton hmap hkeys hsize
    refine ⟨fun key hkey => Option.isSome_iff_exists.mp (hall key hkey),
      fun joint hjoint => Option.isSome_iff_exists.mp (hall _ (hstart joint hjoint)), ?_⟩
    rw [drawSkeleton_of_size_eq _ _ _ _ _ hsize]
    exact (drawJoints_of_parents ops _ skeleton skeleton
      (fun joint hjoint => hall _ (hstart joint hjoint))).1
  · intro skeleton hsize
    rw [drawSkeleton_of_size_ne _ _ _ _ _ hsize]
    exact ⟨rfl, fun key => skeletonAt_not_mem_nil key⟩
  · intro isCapturing mSkeletons hwf
    apply draw_threw_of_parents
    intro skeleton hmem hsize joint hjoint
    have hsk := hwf skeleton hmem
    exact lookupAt_isSome_of_full count skeleton hsk.1 (fun j hj => (hsk.2 j hj).1) hsize _
      (hsk.2 joint hjoint).2

/-- Witness of `lookup_startJoint_safe`: three joints to a skeleton, the skeleton with keys
0, 1, 2 for the first part and a skeleton of two joints for the second. -/
theorem lookup_startJoint_safe_witness :
    (fullSkeleton.IsMap ∧
      (∀ joint ∈ fullSkeleton, joint.1 < 3) ∧
      fullSkeleton.length = 3 ∧
      (∀ joint ∈ fullSkeleton, joint.2.startJoint < 3) ∧
      (chain [1, 2]).length ≠ 3) ∧
    ((drawSkeleton 3 intOps (fun n => n) 0 fullSkeleton).threw = false ∧
      ∀ key, GlCall.skeletonAt key ∉ (drawSkeleton 3 intOps (fun n => n) 0 (chain [1, 2])).calls) :=
  ⟨⟨by decide, by decide, by decide, by decide, by decide⟩,
    ((lookup_startJoint_safe 3 intOps (fun n => n) 0).1 fullSkeleton (by decide) (by decide)
      (by decide) (by decide)).2.2,
    ((lookup_startJoint_safe 3 intOps (fun n => n) 0).2.1 (chain [1, 2]) (by decide)).2⟩

end DrawClaims

/-! ## Properties of update -/

section UpdateLemmas

variable {V M : Type}

theorem update_not_capturing (frame : Frame V M) (mSkeletons : List (Skeleton V M))
    (h : frame.isCapturing = false) :
    update frame mSkeletons =
      (mSkeletons, if frame.getElapsedFrames % 90 = 0 then [.start] else []) := by
  simp only [update, h, Bool.false_eq_true, if_false]
  split <;> rfl

/-- A run in which the session is never capturing leaves the cached skeletons alone and
calls `start` at the multiples of 90 among the elapsed-frame counts it passes. -/
theorem run_never_capturing (sensor : Nat → Frame V M)
    (h : ∀ n, (sensor n).isCapturing = false) :
    ∀ (frames first : Nat) (mSkeletons : List (Skeleton V M)),
      run sensor frames first mSkeletons =
        (mSkeletons,
          ((List.range' first frames).filter (fun c => c % 90 = 0)).map
            (fun c => (c, KinectCall.start))) := by
  intro frames
  induction frames with
  | zero => intro first mSkeletons; simp [run]
  | succ frames ih =>
    intro first mSkeletons
    have hstep := update_not_capturing { sensor first with getElapsedFrames := first }
      mSkeletons (h first)
    simp only [run, hstep, ih, List.range'_succ, List.filter_cons]
    by_cases hc : first % 90 = 0 <;> simp [hc]

theorem restartCounts_never_capturing (sensor : Nat → Frame V M)
    (h : ∀ n, (sensor n).isCapturing = false) (frames : Nat) :
    restartCounts sensor frames = (List.range frames).filter (fun c => c % 90 = 0) := by
  simp [restartCounts, run_never_capturing sensor h, List.range_eq_range', Function.comp_def]

end UpdateLemmas

/-! ## Claims about update -/

section UpdateClaims

variable {V M : Type}

set_option maxRecDepth 100000

/-- C2. One call of `update` calls `start` exactly once when the session is not capturing and
the elapsed-frame count is a multiple of 90, and makes no call otherwise. So, as long as the
session does not capture, what `update` does at count `n + 90` is what it does at count `n`,
and in a run where the session never captures there is a restart at count `90 * k` for
every `k`: the attempts neither stop nor thin out. -/
theorem update_restart (sensor : Nat → Frame V M) :
    (∀ (frame : Frame V M) (mSkeletons : List (Skeleton V M)),
      (update frame mSkeletons).2 =
        if frame.isCapturing = false ∧ frame.getElapsedFrames % 90 = 0 then [.start] else []) ∧
    (∀ (frame : Frame V M) (mSkeletons : List (Skeleton V M)) (n : Nat),
      (update { frame with isCapturing := false, getElapsedFrames := n + 90 } mSkeletons).2 =
        (update { frame with isCapturing := false, getElapsedFrames := n } mSkeletons).2) ∧
    ((∀ n, (sensor n).isCapturing = false) →
      ∀ k : Nat,
        (restartCounts sensor (90 * k + 1)).count (90 * k) = 1 ∧
        (∀ c, 90 * k < c → c < 90 * (k + 1) → c ∉ restartCounts sensor (90 * (k + 1))) ∧
        (restartCounts sensor (90 * (k + 1) + 1)).count (90 * (k + 1)) = 1) := by
  refine ⟨?_, ?_, ?_⟩
  · intro frame mSkeletons
    unfold update
    cases frame.isCapturing <;> cases frame.checkNewSkeletons <;> simp <;> split <;> rfl
  · intro frame mSkeletons n
    simp [update, Nat.add_mod]
  · intro h k
    have hone : ∀ j : Nat, (restartCounts sensor (90 * j + 1)).count (90 * j) = 1 := by
      intro j
      rw [restartCounts_never_capturing sensor h]
      apply List.count_eq_one_of_mem ((List.nodup_range _).filter _)
      simp [List.mem_filter, List.mem_range]
    refine ⟨hone k, ?_, hone (k + 1)⟩
    intro c hlo hhi
    rw [restartCounts_never_capturing sensor h]
    simp only [List.mem_filter, List.mem_range, decide_eq_true_eq, not_and]
    intro _
    omega

/-- Witness of `update_restart`: the session that never captures, around the third restart. -/
theorem update_restart_witness :
    (∀ n, ((neverCapturing : Nat → Frame Int Unit) n).isCapturing = false) ∧
    (restartCounts (neverCapturing : Nat → Frame Int Unit) 181).count 180 = 1 ∧
    (∀ c, 180 < c → c < 270 → c ∉ restartCounts (neverCapturing : Nat → Frame Int Unit) 270) ∧
    (restartCounts (neverCapturing : Nat → Frame Int Unit) 271).count 270 = 1 :=
  ⟨fun _ => rfl, (update_restart (neverCapturing : Nat → Frame Int Unit)).2.2 (fun _ => rfl) 2⟩

/-- C3, as stated, fails. In the run from elapsed-frame count 0 with a session that never
captures, `update` calls `start` at count 0 already, so the counts 0 to 89 are not free of
restart attempts and the attempt at count 90 is the second one. -/
theorem restart_first_counterexample :
    (update (neverCapturing 0 : Frame Int Unit) []).2 = [.start] ∧
    restartCounts (neverCapturing : Nat → Frame Int Unit) 90 = [0] ∧
    restartCounts (neverCapturing : Nat → Frame Int Unit) 91 = [0, 90] := by
  decide

/-- C3, amended. In a run where `update` is called once per frame from elapsed-frame count 0
on and the session is never capturing, the restart attempts are issued exactly at the counts
that are multiples of 90: the first at count 0, none at the counts 1 to 89, the next at 90,
180, 270 and so on every 90 frames. -/
theorem restart_counts_of_run (sensor : Nat → Frame V M)
    (h : ∀ n, (sensor n).isCapturing = false) (frames : Nat) :
    restartCounts sensor frames = (List.range frames).filter (fun c => c % 90 = 0) ∧
    (∀ c, c ∈ restartCounts sensor frames ↔ (c < frames ∧ 90 ∣ c)) ∧
    restartCounts sensor 1 = [0] ∧
    restartCounts sensor 90 = [0] ∧
    restartCounts sensor 271 = [0, 90, 180, 270] := by
  refine ⟨restartCounts_never_capturing sensor h frames, ?_, ?_, ?_, ?_⟩
  · intro c
    rw [restartCounts_never_capturing sensor h]
    simp [List.mem_filter, List.mem_range, Nat.dvd_iff_mod_eq_zero]
  · rw [restartCounts_never_capturing sensor h]; decide
  · rw [restartCounts_never_capturing sensor h]; decide
  · rw [restartCounts_never_capturing sensor h]; decide

/-- Witness of `restart_counts_of_run`: the session that never captures, run for 200
frames. -/
theorem restart_counts_of_run_witness :
    (∀ n, ((neverCapturing : Nat → Frame Int Unit) n).isCapturing = false) ∧
    restartCounts (neverCapturing : Nat → Frame Int Unit) 200 =
      (List.range 200).filter (fun c => c % 90 = 0) :=
  ⟨fun _ => rfl,
    (restart_counts_of_run (neverCapturing : Nat → Frame Int Unit) (fun _ => rfl) 200).1⟩

/-- C4. After one call of `update` the cached skeletons are the skeletons the sensor session
hands out, whatever was cached before, when the session is capturing and reports new
skeletons; in every other case they are the ones cached before. -/
theorem update_mSkeletons (frame : Frame V M) (mSkeletons : List (Skeleton V M)) :
    (update frame mSkeletons).1 =
      if frame.isCapturing = true ∧ frame.checkNewSkeletons = true then frame.getSkeletons
      else mSkeletons := by
  unfold update
  cases frame.isCapturing <;> cases frame.checkNewSkeletons <;> simp <;> split <;> rfl

end UpdateClaims

/-! ## Properties of keyDown and screenShot -/

section KeyLemmas

variable {P S : Type}

theorem toDigitsCore_eq_digits (fuel : Nat) :
    ∀ (n : Nat) (ds : List Char), 0 < n → n < fuel →
      Nat.toDigitsCore 10 fuel n ds = (Nat.digits 10 n).reverse.map Nat.digitChar ++ ds := by
  induction fuel with
  | zero => intro n ds _ h; omega
  | succ fuel ih =>
    intro n ds hpos hlt
    rw [Nat.digits_def' (by decide) hpos]
    simp only [Nat.toDigitsCore]
    by_cases hq : n / 10 = 0
    · simp [hq]
    · simp only [hq, if_false]
      rw [ih (n / 10) _ (Nat.pos_of_ne_zero hq) (by omega)]
      simp

theorem toString_eq_decimal (n : Nat) : toString n = decimal n := by
  show Nat.repr n = decimal n
  unfold decimal
  by_cases h : n = 0
  · subst h; decide
  · simp only [h, if_false, Nat.repr, Nat.toDigits, List.asString]
    rw [toDigitsCore_eq_digits (n + 1) n [] (Nat.pos_of_ne_zero h) (by omega)]
    simp

theorem digitChar_ne_separator (d : Nat) (h : d < 10) :
    Nat.digitChar d ≠ '/' ∧ Nat.digitChar d ≠ '\\' := by
  interval_cases d <;> decide

end KeyLemmas

/-! ## Claims about keyDown and screenShot -/

section KeyClaims

variable {P S : Type}

/-- C5. What `keyDown` does is fixed by the key code. Escape: the one call `quit()`. The
key f: the one call `setFullScreen` with the negation of the current full-screen state.
Space: the one call `writeImage` of `screenShot`. Any other code: no call, the host is
left as it is. Outside the f case the full-screen state keeps its value. -/
theorem keyDown_actions (keys : KeyCodes) (code : Int) (h : Host P S) :
    (code = keys.KEY_ESCAPE →
      h.newCalls (keyDown keys code h) = [.quit] ∧
      (keyDown keys code h).isFullScreen = h.isFullScreen) ∧
    (code = keys.KEY_f →
      h.newCalls (keyDown keys code h) = [.setFullScreen (!h.isFullScreen)] ∧
      (keyDown keys code h).isFullScreen = !h.isFullScreen) ∧
    (code = keys.KEY_SPACE →
      h.newCalls (keyDown keys code h) =
        [.writeImage (h.pathAppend h.getAppPath (screenShotName h.getElapsedFrames))
          h.copyWindowSurface] ∧
      (keyDown keys code h).isFullScreen = h.isFullScreen) ∧
    (code ≠ keys.KEY_ESCAPE → code ≠ keys.KEY_f → code ≠ keys.KEY_SPACE →
      keyDown keys code h = h ∧ h.newCalls (keyDown keys code h) = []) := by
  refine ⟨?_, ?_, ?_, ?_⟩
  · intro hc
    simp [keyDown, hc, Host.quit, Host.newCalls]
  · intro hc
    have hne : keys.KEY_f ≠ keys.KEY_ESCAPE := fun e => keys.escape_ne_f e.symm
    simp [keyDown, hc, hne, Host.setFullScreen, Host.newCalls]
  · intro hc
    have hne1 : keys.KEY_SPACE ≠ keys.KEY_ESCAPE := fun e => keys.escape_ne_space e.symm
    have hne2 : keys.KEY_SPACE ≠ keys.KEY_f := fun e => keys.f_ne_space e.symm
    simp [keyDown, hc, hne1, hne2, screenShot, Host.writeImage, Host.newCalls]
  · intro h1 h2 h3
    simp [keyDown, h1, h2, h3, Host.newCalls]

/-- Witness of `keyDown_actions`: the key codes of Cinder, pressed on a window at
elapsed-frame count 12; the code 97 is the letter a. -/
theorem keyDown_actions_witness :
    exampleHost.newCalls (keyDown cinderKeys 27 exampleHost) = [.quit] ∧
    exampleHost.newCalls (keyDown cinderKeys 102 exampleHost) = [.setFullScreen true] ∧
    exampleHost.newCalls (keyDown cinderKeys 32 exampleHost) =
      [.writeImage "app/frame12.png" 7] ∧
    exampleHost.newCalls (keyDown cinderKeys 97 exampleHost) = [] :=
  ⟨((keyDown_actions cinderKeys 27 exampleHost).1 rfl).1,
    ((keyDown_actions cinderKeys 102 exampleHost).2.1 rfl).1,
    ((keyDown_actions cinderKeys 32 exampleHost).2.2.1 rfl).1.trans (by decide),
    ((keyDown_actions cinderKeys 97 exampleHost).2.2.2 (by decide) (by decide) (by decide)).2⟩

/-- C6. One press of the key f turns the full-screen state into its opposite, and two
presses in a row bring it back to what it was. -/
theorem keyDown_f_twice (keys : KeyCodes) (h : Host P S) :
    (keyDown keys keys.KEY_f h).isFullScreen = !h.isFullScreen ∧
    (keyDown keys keys.KEY_f (keyDown keys keys.KEY_f h)).isFullScreen = h.isFullScreen := by
  have hne : keys.KEY_f ≠ keys.KEY_ESCAPE := fun e => keys.escape_ne_f e.symm
  simp [keyDown, hne, Host.setFullScreen]

/-- C7. A press of the space key makes exactly one call, a `writeImage` whose content is the
copy of the window surface and whose path is the application path joined with one file
name. The file name is the text frame, then the decimal rendering of the elapsed-frame
count, then the text .png, and it contains no path separator, so the file lies directly in
the application directory. -/
theorem keyDown_space_screenShot (keys : KeyCodes) (h : Host P S) :
    h.newCalls (keyDown keys keys.KEY_SPACE h) =
      [.writeImage (h.pathAppend h.getAppPath (screenShotName h.getElapsedFrames))
        h.copyWindowSurface] ∧
    screenShotName h.getElapsedFrames = "frame" ++ decimal h.getElapsedFrames ++ ".png" ∧
    (∀ c ∈ (screenShotName h.getElapsedFrames).data, c ≠ '/' ∧ c ≠ '\\') := by
  have hne1 : keys.KEY_SPACE ≠ keys.KEY_ESCAPE := fun e => keys.escape_ne_space e.symm
  have hne2 : keys.KEY_SPACE ≠ keys.KEY_f := fun e => keys.f_ne_space e.symm
  refine ⟨?_, ?_, ?_⟩
  · simp [keyDown, hne1, hne2, screenShot, Host.writeImage, Host.newCalls]
  · simp [screenShotName, toString_eq_decimal]
  · intro c hc
    simp only [screenShotName, toString_eq_decimal, String.data_append, List.mem_append] at hc
    rcases hc with (hc | hc) | hc
    · have : c ∈ ['f', 'r', 'a', 'm', 'e'] := hc
      simp only [List.mem_cons, List.mem_singleton, List.not_mem_nil, or_false] at this
      rcases this with rfl | rfl | rfl | rfl | rfl <;> decide
    · unfold decimal at hc
      split at hc
      · have : c ∈ ['0'] := hc
        simp only [List.mem_singleton] at this
        subst this; decide
      · simp only [List.mem_map, List.mem_reverse] at hc
        obtain ⟨d, hd, rfl⟩ := hc
        exact digitChar_ne_separator d (Nat.digits_lt_base (by decide) hd)
    · have : c ∈ ['.', 'p', 'n', 'g'] := hc
      simp only [List.mem_cons, List.mem_singleton, List.not_mem_nil, or_false] at this
      rcases this with rfl | rfl | rfl | rfl <;> decide

/-- Witness of `keyDown_space_screenShot`: the space key pressed at elapsed-frame count 12
writes the file frame12.png in the application directory. -/
theorem keyDown_space_screenShot_witness :
    exampleHost.newCalls (keyDown cinderKeys cinderKeys.KEY_SPACE exampleHost) =
      [.writeImage "app/frame12.png" 7] ∧
    screenShotName exampleHost.getElapsedFrames = "frame12.png" :=
  ⟨(keyDown_space_screenShot cinderKeys exampleHost).1.trans (by decide), by decide⟩

end KeyClaims

/-! ## Claims about setup -/

section SetupClaims

variable {D R : Type}

/-- C8. The calls of `setup`: the sensor session is started once and the face tracker is
configured once, both with the default-constructed device options; background removal,
mirroring with `flipped = true` (and no other value), the smoothing transform (and no
other), `lookAt` and `setPerspective` of the camera are each issued exactly once, each
after the start of the sensor session. -/
theorem setup_calls [DecidableEq D] [DecidableEq R] (defaultOptions : D) (windowAspect : R) :
    (setup defaultOptions windowAspect).filterMap SetupCall.startOptions = [defaultOptions] ∧
    (setup defaultOptions windowAspect).filterMap SetupCall.trackerOptions = [defaultOptions] ∧
    (∀ call ∈ [SetupCall.removeBackground, .setFlipped true, .setTransform .TRANSFORM_SMOOTH,
        .cameraLookAt, .cameraSetPerspective windowAspect, .faceTrackerSetup defaultOptions],
      (setup defaultOptions windowAspect).count call = 1 ∧
      (setup defaultOptions windowAspect).indexOf (.kinectStart defaultOptions) <
        (setup defaultOptions windowAspect).indexOf call) ∧
    (∀ flipped, SetupCall.setFlipped flipped ∈ setup defaultOptions windowAspect →
      flipped = true) ∧
    (∀ transform, SetupCall.setTransform transform ∈ setup defaultOptions windowAspect →
      transform = .TRANSFORM_SMOOTH) ∧
    (∀ aspect, SetupCall.cameraSetPerspective aspect ∈ setup defaultOptions windowAspect →
      aspect = windowAspect) := by
  refine ⟨?_, ?_, ?_, ?_, ?_, ?_⟩
  · simp [setup, SetupCall.startOptions]
  · simp [setup, SetupCall.trackerOptions]
  · intro call hcall
    simp only [List.mem_cons, List.mem_singleton, List.not_mem_nil, or_false] at hcall
    rcases hcall with rfl | rfl | rfl | rfl | rfl | rfl <;>
      simp [setup, List.count_cons, List.indexOf_cons]
  · intro flipped hmem
    simpa [setup] using hmem
  · intro transform hmem
    simpa [setup] using hmem
  · intro aspect hmem
    simpa [setup] using hmem

/-- Witness of `setup_calls`: with device options 5, background removal is called once, and
after the start of the sensor session. -/
theorem setup_calls_witness :
    (SetupCall.removeBackground : SetupCall Nat Nat) ∈
      [SetupCall.removeBackground, .setFlipped true, .setTransform .TRANSFORM_SMOOTH,
        .cameraLookAt, .cameraSetPerspective 4, .faceTrackerSetup 5] ∧
    ((setup 5 4 : List (SetupCall Nat Nat)).count .removeBackground = 1 ∧
      (setup 5 4 : List (SetupCall Nat Nat)).indexOf (.kinectStart 5) <
        (setup 5 4 : List (SetupCall Nat Nat)).indexOf .removeBackground) :=
  ⟨by decide, (setup_calls (5 : Nat) (4 : Nat)).2.2.1 .removeBackground (by decide)⟩

end SetupClaims

end FaceTrackerApp
